import Mathlib

/-!
Verification of the AstroVision-Andromator Android automation agent.

The Python sources (`device_controller.py`, `vision_agent.py`,
`stats_tracker.py`) are shallowly embedded below: pure string processing is
translated directly; device and vision-service effects become explicit
oracles (per-call outcome functions); machine floats become exact rationals.
-/

namespace Andromator

/-! ## String utilities (Python `in`, `index`, `strip`, `replace`, `lower`) -/

/-- Index of the first occurrence of `pat` in `l` (Python `str.index`),
`none` when absent (Python `in` is `isSome`). -/
def listIndexOf? : List Char → List Char → Option Nat
  | [], pat => if pat = [] then some 0 else none
  | c :: t, pat =>
    if pat.isPrefixOf (c :: t) then some 0
    else (listIndexOf? t pat).map (fun n => n + 1)

/-- Python `str.lower` (ASCII, as used by the sources). -/
def lowerStr (s : String) : String := String.mk (s.toList.map Char.toLower)

/-- Character index of the first occurrence of `pat` in `s`. -/
def substrIdx? (s pat : String) : Option Nat := listIndexOf? s.toList pat.toList

/-- Python `pat in s` substring test. -/
def strContains (s pat : String) : Bool := (substrIdx? s pat).isSome

/-- Python `str.strip()` on a character list. -/
def trimList (l : List Char) : List Char :=
  ((l.dropWhile Char.isWhitespace).reverse.dropWhile Char.isWhitespace).reverse

/-- Python `str.strip()`. -/
def pyStrip (s : String) : String := String.mk (trimList s.toList)

/-- Fuel-driven core of Python `str.replace`: replaces every non-overlapping
occurrence of `pat` left to right. Fuel is the length of the list. -/
def replaceFuel (pat rep : List Char) : Nat → List Char → List Char
  | _, [] => []
  | 0, l => l
  | fuel + 1, c :: t =>
    if pat ≠ [] && pat.isPrefixOf (c :: t) then
      rep ++ replaceFuel pat rep fuel (t.drop (pat.length - 1))
    else
      c :: replaceFuel pat rep fuel t

/-- Python `s.replace(pat, rep)`. -/
def pyReplace (s pat rep : String) : String :=
  String.mk (replaceFuel pat.toList rep.toList s.toList.length s.toList)

/-! ## DeviceController (`device_controller.py`) -/

/-- Outcome oracle for the device primitives invoked by `perform_action`:
each primitive call's boolean success status, as the device would report it
(`type_text`, `scroll`, `press_key`, `click` in the source). -/
structure DevOracle where
  typeOk : String → Bool
  scrollOk : String → Bool
  pressOk : String → Bool
  clickOk : Int → Int → Bool

/-- A device oracle where every primitive succeeds. -/
def allOkDev : DevOracle :=
  { typeOk := fun _ => true, scrollOk := fun _ => true,
    pressOk := fun _ => true, clickOk := fun _ _ => true }

/-- The device primitive invoked by a `perform_action` dispatch. -/
inductive Prim where
  | typePrim (t : String)
  | scrollPrim (dir : String)
  | pressPrim (key : String)
  | waitPrim (secs : ℚ)
  | clickPrim (x y : Int)
  deriving Repr, DecidableEq

/-- `DeviceController._extract_text`: scan the lowercased step for the
marker keywords in order, take the remainder of the original step from the
first match, strip it, and delete the trailing phrases. -/
def extract_text (step : String) : Option String :=
  (["type ", "input ", "enter ", "text "].findSome? fun kw =>
    (substrIdx? (lowerStr step) kw).map fun i =>
      let text := pyStrip (String.mk (step.toList.drop (i + kw.toList.length)))
      pyStrip (pyReplace (pyReplace text " and press enter" "") " and send" ""))

/-- `DeviceController._extract_wait_time` regex helper: try to match
`wait\s+(\d+)` at the head of the list. -/
def waitTryHere (l : List Char) : Option Nat :=
  if ("wait".toList).isPrefixOf l then
    let after := l.drop 4
    let ws := after.takeWhile Char.isWhitespace
    if ws = [] then none
    else
      let ds := (after.drop ws.length).takeWhile Char.isDigit
      if ds = [] then none
      else some (ds.foldl (fun acc c => acc * 10 + (c.toNat - 48)) 0)
  else none

/-- Leftmost match of `wait\s+(\d+)` (Python `re.search`). -/
def waitScan : List Char → Option Nat
  | [] => none
  | c :: rest =>
    match waitTryHere (c :: rest) with
    | some n => some n
    | none => waitScan rest

/-- `DeviceController._extract_wait_time`: seconds to wait, default 2. -/
def extract_wait_time (step : String) : ℚ :=
  match waitScan (lowerStr step).toList with
  | some n => (n : ℚ)
  | none => 2

/-- `DeviceController.perform_action`: keyword dispatch of a step string to
one device primitive. Returns the boolean result together with the list of
primitives actually invoked (empty on the no-text / no-coordinate failure
paths). -/
def perform_action (dev : DevOracle) (step : String)
    (pixelCoords : Option (Int × Int) := none) : Bool × List Prim :=
  let sl := lowerStr step
  if strContains sl "type" || strContains sl "input" || strContains sl "enter" then
    match extract_text step with
    | some t => if t = "" then (false, []) else (dev.typeOk t, [Prim.typePrim t])
    | none => (false, [])
  else if strContains sl "scroll" || strContains sl "swipe" then
    let dir := if strContains sl "up" then "up"
      else if strContains sl "left" then "left"
      else if strContains sl "right" then "right"
      else "down"
    (dev.scrollOk dir, [Prim.scrollPrim dir])
  else if strContains sl "press" || strContains sl "back" then
    if strContains sl "back" then (dev.pressOk "back", [Prim.pressPrim "back"])
    else if strContains sl "home" then (dev.pressOk "home", [Prim.pressPrim "home"])
    else if strContains sl "enter" then (dev.pressOk "enter", [Prim.pressPrim "enter"])
    else (false, [])
  else if strContains sl "wait" then
    (true, [Prim.waitPrim (extract_wait_time step)])
  else
    match pixelCoords with
    | some (x, y) => (dev.clickOk x y, [Prim.clickPrim x y])
    | none => (false, [])

/-- Python `int()` on a rational: truncation toward zero. -/
def pyInt (q : ℚ) : Int := if 0 ≤ q then ⌊q⌋ else ⌈q⌉

/-- `DeviceController.convert_normalized_to_pixels`: normalized `[0,1]`
coordinates to pixels, `pixel = int(coord * dimension)`. -/
def convert_normalized_to_pixels (W H : Nat) (x y : ℚ) : Int × Int :=
  (pyInt (x * W), pyInt (y * H))

/-! ## StatsTracker (`stats_tracker.py`) -/

/-- The action counters of `StatsTracker`. -/
structure StatsState where
  actions_performed : Nat
  successful_actions : Nat
  failed_actions : Nat
  deriving Repr, DecidableEq

/-- `StatsTracker.__init__`: all counters zero. -/
def initStats : StatsState := ⟨0, 0, 0⟩

/-- `StatsTracker.record_action`: bump `actions_performed` and exactly one
of `successful_actions` / `failed_actions`. -/
def record_action (s : StatsState) (success : Bool) : StatsState :=
  { actions_performed := s.actions_performed + 1,
    successful_actions :=
      if success then s.successful_actions + 1 else s.successful_actions,
    failed_actions :=
      if success then s.failed_actions else s.failed_actions + 1 }

/-- Replay a sequence of `record_action` calls from a starting state. -/
def runRecords (s : StatsState) : List Bool → StatsState
  | [] => s
  | b :: rest => runRecords (record_action s b) rest

/-! ## VisionAgent (`vision_agent.py`) -/

/-- `VisionAgent._intelligent_locate` loop body. The vision service and the
device are oracles indexed by the attempt counter: `locate n` is the result
of the locate call of attempt `n`, `suggest n` the navigation suggestion
requested during attempt `n` (`none` for a Python `None`), and `navOk n`
whether dispatching that suggestion at the device layer succeeded. `fuel`
is the number of remaining iterations of `for attempt in range(max_retries)`
and the final `Nat` counts issued locate calls. -/
def ilAux (locate : Nat → Option (ℚ × ℚ)) (suggest : Nat → Option String)
    (navOk : Nat → Bool) (maxRetries : Nat) :
    Nat → Nat → Nat → Option (ℚ × ℚ) × Nat
  | 0, _, count => (none, count)
  | fuel + 1, attempt, count =>
    match locate attempt with
    | some c => (some c, count + 1)
    | none =>
      if attempt < maxRetries - 1 then
        match suggest attempt with
        | some a =>
          if !(a = "") && !(strContains a "not possible") then
            -- navigation dispatched; success only changes logging/screenshot
            if navOk attempt then
              ilAux locate suggest navOk maxRetries fuel (attempt + 1) (count + 1)
            else
              ilAux locate suggest navOk maxRetries fuel (attempt + 1) (count + 1)
          else (none, count + 1)
        | none => (none, count + 1)
      else
        ilAux locate suggest navOk maxRetries fuel (attempt + 1) (count + 1)

/-- `VisionAgent._intelligent_locate` with its locate-call count. -/
def intelligent_locate (locate : Nat → Option (ℚ × ℚ))
    (suggest : Nat → Option String) (navOk : Nat → Bool)
    (maxRetries : Nat := 3) : Option (ℚ × ℚ) × Nat :=
  ilAux locate suggest navOk maxRetries maxRetries 0 0

/-- The non-visual command vocabulary of `VisionAgent._execute_step`. -/
def nonVisualCmds : List String := ["scroll", "swipe", "back", "home", "wait"]

/-- Trace of one `VisionAgent._execute_step` call: the returned boolean,
the flags passed to `record_action` (in order), the number of vision locate
calls issued, and the device primitives dispatched via `perform_action`. -/
structure StepTrace where
  result : Bool
  recorded : List Bool
  locateCalls : Nat
  prims : List Prim
  deriving Repr, DecidableEq

/-- `VisionAgent._execute_step`. `captureOk` is the screenshot outcome and
`locator` abstracts the configured locate strategy (basic or intelligent):
its result and the number of locate calls it would issue when consulted. -/
def execute_step (dev : DevOracle) (captureOk : Bool)
    (locator : Option (ℚ × ℚ) × Nat) (W H : Nat) (step : String) : StepTrace :=
  match captureOk with
  | false => { result := false, recorded := [], locateCalls := 0, prims := [] }
  | true =>
    let sl := lowerStr step
    if nonVisualCmds.any (fun cmd => strContains sl cmd) then
      let r := perform_action dev step none
      { result := r.1, recorded := [r.1], locateCalls := 0, prims := r.2 }
    else
      if locator.1.isNone && !(strContains sl "type") then
        { result := false, recorded := [false], locateCalls := locator.2, prims := [] }
      else
        let pc := locator.1.map fun p => convert_normalized_to_pixels W H p.1 p.2
        let r := perform_action dev step pc
        { result := r.1, recorded := [r.1], locateCalls := locator.2, prims := r.2 }

/-- Result dictionary of `VisionAgent.run_test_case` (statistics omitted). -/
structure RunResult where
  status : String
  completed_steps : Nat
  total_steps : Nat
  failed_step : Option String
  deriving Repr, DecidableEq

/-- The step loop of `run_test_case` with step execution abstracted:
`exec i` is the boolean outcome of executing the `i`-th step (0-indexed).
Returns (completed steps, failed step, number of steps attempted). -/
def runSteps (exec : Nat → Bool) : List String → Nat → Nat × Option String × Nat
  | [], _ => (0, none, 0)
  | s :: rest, i =>
    if exec i then
      let r := runSteps exec rest (i + 1)
      (r.1 + 1, r.2.1, r.2.2 + 1)
    else
      (0, some s, 1)

/-- `VisionAgent.run_test_case` over an abstract step executor, paired with
the number of steps attempted. -/
def run_test_case (exec : Nat → Bool) (steps : List String) : RunResult × Nat :=
  let r := runSteps exec steps 0
  ({ status := if r.1 = steps.length then "success" else "failed",
     completed_steps := r.1, total_steps := steps.length,
     failed_step := r.2.1 }, r.2.2)

/-- The step loop of `run_test_case` running each step through the embedded
`execute_step` (per-step oracles indexed by position). Returns (completed
steps, failed step, total vision locate calls issued). -/
def runStepsFull (dev : DevOracle) (captureOk : Nat → Bool)
    (locator : Nat → Option (ℚ × ℚ) × Nat) (W H : Nat) :
    List String → Nat → Nat × Option String × Nat
  | [], _ => (0, none, 0)
  | s :: rest, i =>
    let tr := execute_step dev (captureOk i) (locator i) W H s
    if tr.result then
      let r := runStepsFull dev captureOk locator W H rest (i + 1)
      (r.1 + 1, r.2.1, tr.locateCalls + r.2.2)
    else
      (0, some s, tr.locateCalls)

/-- `VisionAgent.run_test_case` composed with `execute_step`, paired with
the total number of vision locate calls issued during the run. -/
def run_test_case_full (dev : DevOracle) (captureOk : Nat → Bool)
    (locator : Nat → Option (ℚ × ℚ) × Nat) (W H : Nat)
    (steps : List String) : RunResult × Nat :=
  let r := runStepsFull dev captureOk locator W H steps 0
  ({ status := if r.1 = steps.length then "success" else "failed",
     completed_steps := r.1, total_steps := steps.length,
     failed_step := r.2.1 }, r.2.2)

/-! ## Theorems -/

/-- C3 (counterexample): at the admissible input x = y = 1 with the default
1080×2400 screen, `convert_normalized_to_pixels` returns (1080, 2400), which
does not lie in [0, W) × [0, H) — the claimed half-open range is violated. -/
theorem convert_pixels_boundary_counterexample :
    convert_normalized_to_pixels 1080 2400 1 1 = (1080, 2400) ∧
    ¬((1080 : Int) < 1080 ∧ (2400 : Int) < 2400) := by
  constructor
  · norm_num [convert_normalized_to_pixels, pyInt]
  · omega

/-- C3 (amended): for normalized x, y ∈ [0,1] and positive screen
dimensions, `convert_normalized_to_pixels` computes (⌊x·W⌋, ⌊y·H⌋); both
components lie in the closed ranges [0, W] and [0, H], and lie strictly
below W (resp. H) whenever x < 1 (resp. y < 1). -/
theorem convert_pixels_floor_bounds (W H : Nat) (x y : ℚ)
    (hx0 : 0 ≤ x) (hx1 : x ≤ 1) (hy0 : 0 ≤ y) (hy1 : y ≤ 1)
    (hW : 0 < W) (hH : 0 < H) :
    convert_normalized_to_pixels W H x y = (⌊x * (W : ℚ)⌋, ⌊y * (H : ℚ)⌋) ∧
    0 ≤ ⌊x * (W : ℚ)⌋ ∧ ⌊x * (W : ℚ)⌋ ≤ (W : Int) ∧
    (x < 1 → ⌊x * (W : ℚ)⌋ < (W : Int)) ∧
    0 ≤ ⌊y * (H : ℚ)⌋ ∧ ⌊y * (H : ℚ)⌋ ≤ (H : Int) ∧
    (y < 1 → ⌊y * (H : ℚ)⌋ < (H : Int)) := by
  have hxW : (0 : ℚ) ≤ x * W := mul_nonneg hx0 (by positivity)
  have hyH : (0 : ℚ) ≤ y * H := mul_nonneg hy0 (by positivity)
  refine ⟨?_, ?_, ?_, ?_, ?_, ?_, ?_⟩
  · simp [convert_normalized_to_pixels, pyInt, if_pos hxW, if_pos hyH]
  · exact Int.floor_nonneg.mpr hxW
  · have h : x * W ≤ (W : ℚ) := by nlinarith
    calc ⌊x * (W : ℚ)⌋ ≤ ⌊(W : ℚ)⌋ := Int.floor_le_floor h
      _ = (W : Int) := Int.floor_natCast W
  · intro hx
    refine Int.floor_lt.mpr ?_
    push_cast
    have hW' : (0 : ℚ) < W := by exact_mod_cast hW
    nlinarith
  · exact Int.floor_nonneg.mpr hyH
  · have h : y * H ≤ (H : ℚ) := by nlinarith
    calc ⌊y * (H : ℚ)⌋ ≤ ⌊(H : ℚ)⌋ := Int.floor_le_floor h
      _ = (H : Int) := Int.floor_natCast H
  · intro hy
    refine Int.floor_lt.mpr ?_
    push_cast
    have hH' : (0 : ℚ) < H := by exact_mod_cast hH
    nlinarith

/-- C3 witness: the amended bounds hold at x = y = 1/2 on a 1080×2400
screen. -/
theorem convert_pixels_floor_bounds_witness :
    convert_normalized_to_pixels 1080 2400 (1/2) (1/2) =
      (⌊(1/2 : ℚ) * ((1080 : Nat) : ℚ)⌋, ⌊(1/2 : ℚ) * ((2400 : Nat) : ℚ)⌋) ∧
    0 ≤ ⌊(1/2 : ℚ) * ((1080 : Nat) : ℚ)⌋ ∧
    ⌊(1/2 : ℚ) * ((1080 : Nat) : ℚ)⌋ ≤ ((1080 : Nat) : Int) ∧
    ((1/2 : ℚ) < 1 → ⌊(1/2 : ℚ) * ((1080 : Nat) : ℚ)⌋ < ((1080 : Nat) : Int)) ∧
    0 ≤ ⌊(1/2 : ℚ) * ((2400 : Nat) : ℚ)⌋ ∧
    ⌊(1/2 : ℚ) * ((2400 : Nat) : ℚ)⌋ ≤ ((2400 : Nat) : Int) ∧
    ((1/2 : ℚ) < 1 → ⌊(1/2 : ℚ) * ((2400 : Nat) : ℚ)⌋ < ((2400 : Nat) : Int)) :=
  convert_pixels_floor_bounds 1080 2400 (1/2) (1/2)
    (by norm_num) (by norm_num) (by norm_num) (by norm_num)
    (by norm_num) (by norm_num)

/-- C5 (code bug): the step "press enter" is captured by the type/input
dispatch branch (because it contains "enter"), no typing text can be
extracted, and `perform_action` returns false without invoking any
primitive — the key-press primitive is never reached, while "press back"
and "press home" dispatch to their key-press primitives as specified. -/
theorem press_enter_misdispatch (dev : DevOracle) :
    perform_action dev "press enter" none = (false, []) ∧
    perform_action dev "press back" none =
      (dev.pressOk "back", [Prim.pressPrim "back"]) ∧
    perform_action dev "press home" none =
      (dev.pressOk "home", [Prim.pressPrim "home"]) :=
  ⟨rfl, rfl, rfl⟩

/-- C9: for the step "type hello world and press enter" the extracted
typing text is exactly "hello world" (marker word consumed, trailing
phrase stripped), and `perform_action` passes it to the type primitive as
a single literal string, returning the primitive's flag. -/
theorem type_hello_world_extraction (dev : DevOracle) :
    extract_text "type hello world and press enter" = some "hello world" ∧
    perform_action dev "type hello world and press enter" none =
      (dev.typeOk "hello world", [Prim.typePrim "hello world"]) :=
  ⟨rfl, rfl⟩

/-- The locate-call count of the auto-navigation loop is bounded by the
starting count plus the remaining fuel. -/
theorem ilAux_count_le (L : Nat → Option (ℚ × ℚ)) (S : Nat → Option String)
    (N : Nat → Bool) (m : Nat) :
    ∀ fuel attempt count, (ilAux L S N m fuel attempt count).2 ≤ count + fuel := by
  intro fuel
  induction fuel with
  | zero => intro attempt count; simp [ilAux]
  | succ f ih =>
    intro attempt count
    simp only [ilAux]
    split
    · dsimp only; omega
    · split
      · split
        · split
          · split
            · exact le_trans (ih (attempt + 1) (count + 1)) (by omega)
            · exact le_trans (ih (attempt + 1) (count + 1)) (by omega)
          · dsimp only; omega
        · dsimp only; omega
      · exact le_trans (ih (attempt + 1) (count + 1)) (by omega)

/-- C1: (1) the auto-navigation loop issues at most `maxRetries` locate
calls and terminates; (2) when locate fails on a non-final attempt and the
navigation suggestion is absent, the loop stops right there after that one
locate call; (3) likewise when the suggestion contains "not possible";
(4) with locate always failing and the suggestion "not possible" and the
default budget of 3, the loop returns nothing after exactly 1 locate call. -/
theorem intelligent_locate_bounded :
    (∀ (L : Nat → Option (ℚ × ℚ)) (S : Nat → Option String) (N : Nat → Bool)
      (m : Nat), (intelligent_locate L S N m).2 ≤ m) ∧
    (∀ (L : Nat → Option (ℚ × ℚ)) (S : Nat → Option String) (N : Nat → Bool)
      (m fuel attempt count : Nat), L attempt = none → attempt < m - 1 →
      S attempt = none →
      ilAux L S N m (fuel + 1) attempt count = (none, count + 1)) ∧
    (∀ (L : Nat → Option (ℚ × ℚ)) (S : Nat → Option String) (N : Nat → Bool)
      (m fuel attempt count : Nat) (a : String), L attempt = none →
      attempt < m - 1 → S attempt = some a →
      strContains a "not possible" = true →
      ilAux L S N m (fuel + 1) attempt count = (none, count + 1)) ∧
    (∀ N : Nat → Bool,
      intelligent_locate (fun _ => none) (fun _ => some "not possible") N 3 =
        (none, 1)) := by
  refine ⟨?_, ?_, ?_, fun N => rfl⟩
  · intro L S N m
    simpa [intelligent_locate] using ilAux_count_le L S N m m 0 0
  · intro L S N m fuel attempt count hL hlt hS
    simp [ilAux, hL, hS, if_pos hlt]
  · intro L S N m fuel attempt count a hL hlt hS hnp
    simp [ilAux, hL, hS, if_pos hlt, hnp]

/-- C1 witness: the "not possible" shortcut instantiated on the scenario of
the spec (locate always none, suggestion "not possible", budget 3): exactly
one locate call, result nothing. -/
theorem intelligent_locate_bounded_witness :
    ilAux (fun _ => none) (fun _ => some "not possible") (fun _ => true) 3
      3 0 0 = (none, 1) :=
  intelligent_locate_bounded.2.2.1 (fun _ => none)
    (fun _ => some "not possible") (fun _ => true) 3 2 0 0 "not possible"
    rfl (by decide) rfl (by decide)

/-- C7: on a non-final attempt with a failed locate and a valid suggestion
(non-empty, not "not possible"), a failed dispatch of the suggested action
at the device layer does not abort the loop: the run continues exactly as
the next attempt's loop. -/
theorem nav_failure_advances (L : Nat → Option (ℚ × ℚ))
    (S : Nat → Option String) (N : Nat → Bool) (m fuel attempt count : Nat)
    (a : String) (hL : L attempt = none) (hlt : attempt < m - 1)
    (hS : S attempt = some a) (ha : a ≠ "")
    (hnp : strContains a "not possible" = false) (hnav : N attempt = false) :
    ilAux L S N m (fuel + 1) attempt count =
      ilAux L S N m fuel (attempt + 1) (count + 1) := by
  simp only [ilAux, hL]
  rw [if_pos hlt]
  simp [hS, ha, hnp, hnav]

/-- C7 witness: with locate always none, the suggestion "scroll down", and
every navigation dispatch failing, the first iteration of a budget-3 loop
advances to the second attempt. -/
theorem nav_failure_advances_witness :
    ilAux (fun _ => none) (fun _ => some "scroll down") (fun _ => false) 3
      3 0 0 =
    ilAux (fun _ => none) (fun _ => some "scroll down") (fun _ => false) 3
      2 1 1 :=
  nav_failure_advances (fun _ => none) (fun _ => some "scroll down")
    (fun _ => false) 3 2 0 0 "scroll down" rfl (by decide) rfl (by decide)
    (by decide) rfl

/-- When every step of the list succeeds, the step loop completes them all,
reports no failed step, and attempts each exactly once. -/
theorem runSteps_all_ok (exec : Nat → Bool) :
    ∀ (steps : List String) (i : Nat),
      (∀ j, j < steps.length → exec (i + j) = true) →
      runSteps exec steps i = (steps.length, none, steps.length) := by
  intro steps
  induction steps with
  | nil => intro i h; rfl
  | cons s rest ih =>
    intro i h
    have h0 : exec i = true := by simpa using h 0 (by simp)
    have hrest : ∀ j, j < rest.length → exec (i + 1 + j) = true := by
      intro j hj
      have := h (j + 1) (by simpa using Nat.succ_lt_succ hj)
      have harith : i + (j + 1) = i + 1 + j := by omega
      rwa [harith] at this
    simp [runSteps, h0, ih (i + 1) hrest]

/-- When the steps split as `pre ++ s :: post` with every step of `pre`
succeeding and `s` failing, the step loop stops at `s`: `pre.length` steps
complete, `s` is the failed step, and exactly `pre.length + 1` steps are
attempted — nothing of `post` runs. -/
theorem runSteps_first_fail (exec : Nat → Bool) :
    ∀ (pre : List String) (s : String) (post : List String) (i : Nat),
      (∀ j, j < pre.length → exec (i + j) = true) →
      exec (i + pre.length) = false →
      runSteps exec (pre ++ s :: post) i =
        (pre.length, some s, pre.length + 1) := by
  intro pre
  induction pre with
  | nil =>
    intro s post i _ hf
    have h0 : exec i = false := by simpa using hf
    simp [runSteps, h0]
  | cons p rest ih =>
    intro s post i h hf
    have h0 : exec i = true := by simpa using h 0 (by simp)
    have hrest : ∀ j, j < rest.length → exec (i + 1 + j) = true := by
      intro j hj
      have := h (j + 1) (by simpa using Nat.succ_lt_succ hj)
      have harith : i + (j + 1) = i + 1 + j := by omega
      rwa [harith] at this
    have hf' : exec (i + 1 + rest.length) = false := by
      have harith : i + (p :: rest).length = i + 1 + rest.length := by
        simp; omega
      rwa [harith] at hf
    simp [runSteps, h0, ih s post (i + 1) hrest hf']

/-- C2: for a run over `pre ++ s :: post` where every step of `pre`
succeeds and `s` is the first failing step (at 1-indexed position
`pre.length + 1`), `run_test_case` reports `pre.length` completed steps,
failed step `s`, status "failed", and attempts only `pre.length + 1` steps
(none of `post` runs); and when all steps succeed it reports all of them
completed, status "success", and no failed step. -/
theorem run_test_case_spec :
    (∀ (exec : Nat → Bool) (pre : List String) (s : String)
      (post : List String),
      (∀ j, j < pre.length → exec j = true) → exec pre.length = false →
      run_test_case exec (pre ++ s :: post) =
        ({ status := "failed", completed_steps := pre.length,
           total_steps := (pre ++ s :: post).length, failed_step := some s },
         pre.length + 1)) ∧
    (∀ (exec : Nat → Bool) (steps : List String),
      (∀ j, j < steps.length → exec j = true) →
      run_test_case exec steps =
        ({ status := "success", completed_steps := steps.length,
           total_steps := steps.length, failed_step := none },
         steps.length)) := by
  constructor
  · intro exec pre s post h hf
    have hrun := runSteps_first_fail exec pre s post 0 (by simpa using h)
      (by simpa using hf)
    have hne : pre.length ≠ (pre ++ s :: post).length := by
      simp
    simp [run_test_case, hrun, hne]
  · intro exec steps h
    have hrun := runSteps_all_ok exec steps 0 (by simpa using h)
    simp [run_test_case, hrun]

/-- C2 witness: three steps with the second failing — one completed step,
failed step "open menu", status "failed", two steps attempted. -/
theorem run_test_case_spec_witness :
    run_test_case (fun i => i != 1) (["launch app"] ++ "open menu" :: ["close app"]) =
      ({ status := "failed", completed_steps := 1,
         total_steps := (["launch app"] ++ "open menu" :: ["close app"]).length,
         failed_step := some "open menu" }, 2) :=
  run_test_case_spec.1 (fun i => i != 1) ["launch app"] "open menu"
    ["close app"] (by decide) (by decide)

/-- C4 (counterexample): when the initial screenshot capture fails,
`_execute_step` returns false without recording any action result — the
stats tracker's `actions_performed` does not increase, refuting the claim
that every call records exactly one action. -/
theorem execute_step_capture_fail_no_record :
    (execute_step allOkDev false (none, 0) 1080 2400 "tap the button").recorded
      = [] ∧
    ((execute_step allOkDev false (none, 0) 1080 2400
      "tap the button").recorded.length = 1 → False) :=
  ⟨rfl, by decide⟩

/-- C4 (amended): whenever the screenshot capture succeeds, `_execute_step`
records exactly one action result and the recorded flag equals the boolean
it returns; when the capture fails, it returns false and records nothing. -/
theorem execute_step_records_once (dev : DevOracle)
    (locator : Option (ℚ × ℚ) × Nat) (W H : Nat) (step : String) :
    (execute_step dev true locator W H step).recorded =
      [(execute_step dev true locator W H step).result] ∧
    (execute_step dev false locator W H step).recorded = [] ∧
    (execute_step dev false locator W H step).result = false := by
  refine ⟨?_, rfl, rfl⟩
  unfold execute_step
  dsimp only
  split <;> first
  | rfl
  | (split <;> rfl)

/-- `record_action` preserves the counter-sum invariant from any state. -/
theorem runRecords_inv (l : List Bool) :
    ∀ s : StatsState,
      s.successful_actions + s.failed_actions = s.actions_performed →
      (runRecords s l).successful_actions + (runRecords s l).failed_actions =
        (runRecords s l).actions_performed := by
  induction l with
  | nil => intro s h; exact h
  | cons b rest ih =>
    intro s h
    simp only [runRecords]
    apply ih
    cases b <;> simp [record_action] <;> omega

/-- C6: after any sequence of `record_action` calls from the initial state,
`successful_actions + failed_actions = actions_performed`; each call
increases `actions_performed` by exactly 1, never decreases any counter,
and increments exactly one of `successful_actions` / `failed_actions`. -/
theorem stats_invariant_monotone :
    (∀ l : List Bool,
      (runRecords initStats l).successful_actions +
        (runRecords initStats l).failed_actions =
        (runRecords initStats l).actions_performed) ∧
    (∀ (s : StatsState) (b : Bool),
      (record_action s b).actions_performed = s.actions_performed + 1 ∧
      s.actions_performed ≤ (record_action s b).actions_performed ∧
      s.successful_actions ≤ (record_action s b).successful_actions ∧
      s.failed_actions ≤ (record_action s b).failed_actions) ∧
    (∀ s : StatsState,
      (record_action s true).successful_actions = s.successful_actions + 1 ∧
      (record_action s true).failed_actions = s.failed_actions ∧
      (record_action s false).failed_actions = s.failed_actions + 1 ∧
      (record_action s false).successful_actions = s.successful_actions) := by
  refine ⟨fun l => runRecords_inv l initStats rfl, ?_, ?_⟩
  · intro s b
    cases b <;> simp [record_action]
  · intro s
    simp [record_action]

/-- C8: a run over ["scroll down", "wait 1", "scroll up"] with every device
operation succeeding reports status "success" with all 3 steps completed,
and issues zero vision locate calls, whatever the locate strategy would
have returned — all three steps are classified as non-visual and dispatched
directly. -/
theorem scroll_wait_scroll_run (locator : Nat → Option (ℚ × ℚ) × Nat) :
    run_test_case_full allOkDev (fun _ => true) locator 1080 2400
      ["scroll down", "wait 1", "scroll up"] =
      ({ status := "success", completed_steps := 3, total_steps := 3,
         failed_step := none }, 0) := rfl

/-- C10: for a visual step (no non-visual keyword) whose located
coordinates come back `none`: when the step contains "type" the step is
still dispatched to `perform_action` with no coordinates, and only when it
does not contain "type" does the step fail immediately with a recorded
failure. -/
theorem type_step_locate_fail_dispatch (dev : DevOracle)
    (locator : Option (ℚ × ℚ) × Nat) (W H : Nat) (step : String)
    (hvis : nonVisualCmds.any (fun cmd => strContains (lowerStr step) cmd)
      = false)
    (hloc : locator.1 = none) :
    (strContains (lowerStr step) "type" = true →
      execute_step dev true locator W H step =
        { result := (perform_action dev step none).1,
          recorded := [(perform_action dev step none).1],
          locateCalls := locator.2,
          prims := (perform_action dev step none).2 }) ∧
    (strContains (lowerStr step) "type" = false →
      execute_step dev true locator W H step =
        { result := false, recorded := [false], locateCalls := locator.2,
          prims := [] }) := by
  constructor
  · intro htype
    unfold execute_step
    simp [hvis, hloc, htype]
  · intro htype
    unfold execute_step
    simp [hvis, hloc, htype]

/-- C10 witness: the step "type hello" with a failed locate is dispatched
to `perform_action` without coordinates (and, the device typing succeeding,
the step succeeds). -/
theorem type_step_locate_fail_dispatch_witness :
    execute_step allOkDev true (none, 2) 1080 2400 "type hello" =
      { result := (perform_action allOkDev "type hello" none).1,
        recorded := [(perform_action allOkDev "type hello" none).1],
        locateCalls := 2,
        prims := (perform_action allOkDev "type hello" none).2 } :=
  (type_step_locate_fail_dispatch allOkDev (none, 2) 1080 2400 "type hello"
    (by decide) rfl).1 (by decide)

end Andromator
